import Mathlib

/-!
# Verification of the Derived Metrics Engine

Shallow embedding, in Lean 4, of the four batch computations of the
fantasy-league derived-metrics engine:

* `compute_expected_wins`   (src/app/lib/expected_wins.py)
* `compute_lineup_efficiency` (src/app/lib/lineup_efficiency.py)
* `compute_faab_roi`        (src/app/lib/faab_roi.py)
* `compute_draft_roi`       (src/app/lib/draft_roi.py)
* `simulate_playoff_odds`   (src/app/lib/playoff_odds.py)

Modelling conventions:
* Python floats are modelled as `ℚ` (the claims checked here are order and
  exact-equality claims that are stable under this idealisation).
* Database tables are lists of records; supabase query combinators
  (`.eq`, `.in_`, `.order`, `.limit`) become `List.filter` /
  `List.insertionSort` / head-taking on those lists.
* The transcendental standard-normal CDF `Φ` (implemented in the source as
  `_phi` via `math.erf`) and the composite map `(d, v) ↦ Φ(d / sqrt v)`
  (which also involves `math.sqrt`) are abstracted as function parameters
  `phi : ℚ → ℚ` and `phiDiv : ℚ → ℚ → ℚ`; theorems assume of them only the
  properties of the real `Φ` they need (range in `[0,1]`, `Φ 0 = 1/2`,
  monotonicity).
* `upsert` calls are modelled by emitting the upserted record into the
  function's result list, in emission order.
* Fallible operations (Python `KeyError` / `IndexError` /
  `ZeroDivisionError`) are modelled with `Except Unit`.
* The stochastic `np.random.choice` is modelled by an explicit choice
  stream `rand : Nat → Nat`; a draw from pool `l` takes element
  `rand k % l.length` where `k` is a running draw counter.
-/

/-- Last-wins dictionary lookup: Python `{k: v for ...}` built from an
association list, where a later binding overwrites an earlier one, then
`dict.get k default`. -/
def dictGetD {α β : Type} [DecidableEq α] (l : List (α × β)) (k : α) (d : β) : β :=
  match (l.filter (fun p => p.1 = k)).getLast? with
  | some p => p.2
  | none => d

/-- Plain first-match association lookup (Python `dict[k]` as `Option`). -/
def alookup {α β : Type} [DecidableEq α] (l : List (α × β)) (k : α) : Option β :=
  (l.find? (fun p => p.1 = k)).map (·.2)

namespace ExpectedWins

/-- One row of the `matchups` table (`week,team_a,team_b,score_a,score_b`).
Scores are nullable in the database. -/
structure MRow where
  week : Nat
  team_a : String
  team_b : String
  score_a : Option ℚ
  score_b : Option ℚ
deriving DecidableEq, Repr

/-- Python `float(x or 0)` on a nullable score. -/
def orZero (x : Option ℚ) : ℚ := x.getD 0

/-- `np.mean` of a nonempty list (0 junk value on `[]`, matching no call site:
the source only calls it on nonempty histories). -/
def npMean (l : List ℚ) : ℚ := l.sum / l.length

/-- Population variance (`np.std(l, ddof=0) ** 2`): the source only ever uses
the standard deviations through `sd_a**2 + sd_b**2`, which is this. -/
def popVar (l : List ℚ) : ℚ :=
  (l.map (fun x => (x - npMean l) ^ 2)).sum / l.length

/-- `totals`: the per-team list of that team's scores, in row order, built by
the first loop (lines 12–17 of expected_wins.py):
`totals.setdefault(t, []).append(score)`. -/
def addScore (m : List (String × List ℚ)) (t : String) (s : ℚ) :
    List (String × List ℚ) :=
  match alookup m t with
  | some _ => m.map (fun p => if p.1 = t then (p.1, p.2 ++ [s]) else p)
  | none => m ++ [(t, [s])]

def buildTotals (mts : List MRow) : List (String × List ℚ) :=
  mts.foldl (fun m row =>
    addScore (addScore m row.team_a (orZero row.score_a))
      row.team_b (orZero row.score_b)) []

/-- `totals[t]` (the loop only reads keys it has inserted; `[]` junk). -/
def totalsGet (m : List (String × List ℚ)) (t : String) : List ℚ :=
  (alookup m t).getD []

/-- `hist = totals[t][:-1] if len(totals[t]) > 1 else totals[t]`
(lines 22–23): the team's season score list with its *last* element dropped
when it has more than one entry. -/
def histOf (l : List ℚ) : List ℚ :=
  if l.length > 1 then l.dropLast else l

/-- `(mu, sd) = (np.mean(hist), np.std(hist)) if hist else (score, 0)`
returning the mean and the *variance* (σ²), which is all the source uses. -/
def muVar (hist : List ℚ) (score : ℚ) : ℚ × ℚ :=
  if hist = [] then (score, 0) else (npMean hist, popVar hist)

/-- Lines 44–45 / 51–52: the historical estimate
`_phi((mu_a-mu_b)/denom if denom > 0 else (0.0 if mu_a == mu_b else (10 if mu_a > mu_b else -10)))`
where `denom = sqrt(var_a + var_b)`; `phiDiv d v` stands for `Φ(d / sqrt v)`
and `phi z` for `Φ(z)`. -/
def histEstimate (phi : ℚ → ℚ) (phiDiv : ℚ → ℚ → ℚ)
    (mu_a var_a mu_b var_b : ℚ) : ℚ :=
  if var_a + var_b > 0 then phiDiv (mu_a - mu_b) (var_a + var_b)
  else phi (if mu_a = mu_b then 0 else if mu_a > mu_b then 10 else -10)

/-- Lines 26–52: the win probability `pa` for side A of a matchup in week `w`
given the two sides' histories and current scores. -/
def pWinA (phi : ℚ → ℚ) (phiDiv : ℚ → ℚ → ℚ)
    (w : Nat) (hist_a hist_b : List ℚ) (sa sb : ℚ) : ℚ :=
  let mv_a := muVar hist_a sa
  let mv_b := muVar hist_b sb
  if w = 1 then 1/2
  else if w ≤ 3 then
    let min_games := min hist_a.length hist_b.length
    let confidence : ℚ := min ((min_games : ℚ) / 3) 1
    if min_games < 1 then 1/2
    else
      (1 - confidence) * (1/2) +
        confidence * histEstimate phi phiDiv mv_a.1 mv_a.2 mv_b.1 mv_b.2
  else histEstimate phi phiDiv mv_a.1 mv_a.2 mv_b.1 mv_b.2

/-- One upserted `expected_wins` row. -/
structure EWRec where
  week : Nat
  manager_id : String
  p_win : ℚ
  cum_xw : ℚ
deriving DecidableEq, Repr

/-- `cum_xw[mid] = cum_xw.get(mid, 0.0) + p` (line 54): the running-total
map updated at one key. -/
def upd (f : String → ℚ) (t : String) (x : ℚ) : String → ℚ :=
  fun u => if u = t then f u + x else f u

/-- The scoring loop (lines 20–57).  `totals` is the season-wide map built
once before the loop; `cum` is the running `cum_xw` state (default 0).
For each row two records are emitted — side A with `pa`, then side B with
`1 - pa` — each first accumulating into its manager's running total and
then reading the updated total back (`float(cum_xw[mid])`). -/
def ewLoop (phi : ℚ → ℚ) (phiDiv : ℚ → ℚ → ℚ)
    (totals : List (String × List ℚ)) (cum : String → ℚ) :
    List MRow → List EWRec
  | [] => []
  | row :: rest =>
    let sa := orZero row.score_a
    let sb := orZero row.score_b
    let pa := pWinA phi phiDiv row.week
      (histOf (totalsGet totals row.team_a))
      (histOf (totalsGet totals row.team_b)) sa sb
    let cum1 := upd cum row.team_a pa
    let cum2 := upd cum1 row.team_b (1 - pa)
    ⟨row.week, row.team_a, pa, cum1 row.team_a⟩ ::
      ⟨row.week, row.team_b, 1 - pa, cum2 row.team_b⟩ ::
        ewLoop phi phiDiv totals cum2 rest

instance : IsTotal MRow (fun x y => x.week ≤ y.week) :=
  ⟨fun a b => Nat.le_total a.week b.week⟩

instance : IsTrans MRow (fun x y => x.week ≤ y.week) :=
  ⟨fun _ _ _ => Nat.le_trans⟩

/-- `compute_expected_wins(sb, max_week)`: order the matchup rows by week
(the query's `.order("week")`), keep weeks `≤ max_week`, build the season
score map, then run the scoring loop.  Returns the upserted records in
emission order. -/
def compute_expected_wins (phi : ℚ → ℚ) (phiDiv : ℚ → ℚ → ℚ)
    (mts : List MRow) (max_week : Nat := 14) : List EWRec :=
  let sorted := mts.insertionSort (fun x y => x.week ≤ y.week)
  let kept := sorted.filter (fun row => row.week ≤ max_week)
  ewLoop phi phiDiv (buildTotals kept) (fun _ => 0) kept

end ExpectedWins

namespace Lineup

/-- One row of the `rosters` table. -/
structure RosterRow where
  week : Nat
  manager_id : String
  player_id : String
  slot : String
  started : Bool
deriving DecidableEq, Repr

/-- One row of the `player_stats` table. -/
structure StatRow where
  week : Nat
  player_id : String
  total_points : ℚ
deriving DecidableEq, Repr

/-- One row of the `players` table (eligibility sets are kept as lists,
used only through membership). -/
structure PlayerRow where
  player_id : String
  eligible_positions : List String
deriving DecidableEq, Repr

/-- `STARTING_SLOTS` (lineup_efficiency.py line 6). -/
def STARTING_SLOTS : List String :=
  ["QB", "RB", "RB", "WR", "WR", "TE", "W/R/T", "Q/W/R/T", "DEF", "K"]

/-- `pts = {p["player_id"]: float(p["total_points"]) for p in ps}` for week
`w`, read through `pts.get(pid, 0.0)`. -/
def ptsFor (stats : List StatRow) (w : Nat) (pid : String) : ℚ :=
  dictGetD ((stats.filter (fun s => s.week = w)).map
    (fun s => (s.player_id, s.total_points))) pid 0

/-- `elig = {p["player_id"]: set(p["eligible_positions"]) for p in players}`
restricted to the roster's player ids, read through `elig.get(pid, set())`. -/
def eligFor (players : List PlayerRow) (pids : List String) (pid : String) :
    List String :=
  dictGetD ((players.filter (fun p => p.player_id ∈ pids)).map
    (fun p => (p.player_id, p.eligible_positions))) pid []

/-- `actual = sum(pts.get(r["player_id"], 0.0) for r in roster if r["started"])`
(line 27): every `started` row counts, with no condition on its slot. -/
def actualPts (roster : List RosterRow) (pts : String → ℚ) : ℚ :=
  ((roster.filter (·.started)).map (fun r => pts r.player_id)).sum

/-- Value of the exact ILP of lines 34–49: the maximum, over all assignments
of players to slot instances in which each slot instance holds at most one
player whose eligible set contains the slot's label and each player fills at
most one slot instance, of the assigned players' total points.  The
recursion decides slot by slot whether to leave the slot empty or to fill it
with one of the still-available eligible players; `pulp` with the CBC
backend solves this ILP exactly, so its optimum is this maximum. -/
def best (elig : String → List String) (pts : String → ℚ) :
    List String → List String → ℚ
  | [], _ => 0
  | s :: rest, avail =>
    ((avail.filter (fun p => s ∈ elig p)).map
        (fun p => pts p + best elig pts rest (avail.erase p))).foldl
      max (best elig pts rest avail)

/-- One upserted `lineup_efficiency` row. -/
structure LERec where
  week : Nat
  manager_id : String
  actual_pts : ℚ
  optimal_pts : ℚ
  regret : ℚ
  efficiency : ℚ
deriving DecidableEq, Repr

/-- Lines 26–57 for one `(week, manager)`: the record upserted when the
manager's roster for the week is nonempty. -/
def leRecord (players : List PlayerRow) (w : Nat) (mid : String)
    (roster : List RosterRow) (pts : String → ℚ) : LERec :=
  let actual := actualPts roster pts
  let pids := roster.map (·.player_id)
  let elig := eligFor players pids
  let optimal := best elig pts STARTING_SLOTS pids
  { week := w, manager_id := mid,
    actual_pts := actual, optimal_pts := optimal,
    regret := max 0 (optimal - actual),
    efficiency := if optimal > 0 then actual / optimal else 1 }

/-- The `(week, manager)` roster query of line 22. -/
def rosterFor (rosters : List RosterRow) (w : Nat) (mid : String) :
    List RosterRow :=
  rosters.filter (fun r => r.week = w && r.manager_id = mid)

/-- `compute_lineup_efficiency(sb, max_week)`: weeks present (sorted set of
roster weeks, capped at `max_week`) × managers; a record is emitted exactly
when the `(week, manager)` roster is nonempty.  Returns the upserted records
in emission order. -/
def compute_lineup_efficiency (rosters : List RosterRow)
    (stats : List StatRow) (managers : List String)
    (players : List PlayerRow) (max_week : Nat := 14) : List LERec :=
  let weeks := (List.insertionSort (· ≤ ·) (rosters.map (·.week)).dedup).filter
    (fun w => w ≤ max_week)
  weeks.flatMap (fun w =>
    let pts := ptsFor stats w
    managers.filterMap (fun mid =>
      let roster := rosterFor rosters w mid
      if roster = [] then none
      else some (leRecord players w mid roster pts)))

end Lineup

namespace Roi

open Lineup (RosterRow StatRow)

/-- `START_SLOTS` (faab_roi.py line 1 = draft_roi.py line 1). -/
def START_SLOTS : List String :=
  ["QB", "RB", "WR", "TE", "W/R/T", "Q/W/R/T", "DST", "K"]

/-- One row of the `transactions` table.  `ts` is the transaction timestamp;
it is modelled in week units so that it can be compared against roster
weeks.  (`compute_faab_roi` selects `ts` but never reads it.) -/
structure Transaction where
  tx_id : String
  ts : Nat
  type : String
  manager_id : String
  player_id : String
  faab_spent : Option Int
deriving DecidableEq, Repr

/-- One row of the `draft_picks` table. -/
structure DraftPick where
  manager_id : String
  player_id : String
  cost : Int
deriving DecidableEq, Repr

/-- One upserted `faab_roi` row. -/
structure FaabRec where
  tx_id : String
  manager_id : String
  player_id : String
  start_week : Nat
  end_week : Nat
  pts_all : ℚ
  pts_starting : ℚ
  faab_spent : Int
  pts_per_dollar_all : ℚ
  pts_per_dollar_starting : ℚ
deriving DecidableEq, Repr

/-- One upserted `draft_roi` row. -/
structure DraftRec where
  manager_id : String
  player_id : String
  draft_cost : Int
  pts_all : ℚ
  pts_starting : ℚ
  pts_per_dollar_all : ℚ
  pts_per_dollar_starting : ℚ
deriving DecidableEq, Repr

instance : IsTotal RosterRow (fun x y => x.week ≤ y.week) :=
  ⟨fun a b => Nat.le_total a.week b.week⟩

instance : IsTrans RosterRow (fun x y => x.week ≤ y.week) :=
  ⟨fun _ _ _ => Nat.le_trans⟩

/-- The `(manager, player)` roster query of faab_roi.py line 16 /
draft_roi.py line 24, with its `.order("week")`. -/
def rosterRowsFor (rosters : List RosterRow) (mid pid : String) :
    List RosterRow :=
  List.insertionSort (fun x y => x.week ≤ y.week)
    (rosters.filter (fun r => r.manager_id = mid && r.player_id = pid))

/-- The batched stat lookup + sum of faab_roi.py lines 26–39 (same code in
draft_roi.py lines 35–48): 0 when the week list is empty, otherwise the sum
of the player's `total_points` over stat rows whose week is in the list. -/
def ptsOver (stats : List StatRow) (pid : String) (weeks : List Nat) : ℚ :=
  if weeks = [] then 0
  else ((stats.filter (fun s => s.player_id = pid && s.week ∈ weeks)).map
    (·.total_points)).sum

/-- faab_roi.py lines 13–50, for one candidate `add` transaction: `none`
when the manager has no roster rows for the player (the `continue`),
otherwise the upserted record.  `start_week` is the first roster week —
the transaction timestamp is never consulted. -/
def faabRecOf (rosters : List RosterRow) (stats : List StatRow)
    (last_w : Nat) (tx : Transaction) : Option FaabRec :=
  match rosterRowsFor rosters tx.manager_id tx.player_id with
  | [] => none
  | r0 :: rest =>
    let rows := r0 :: rest
    let faab := tx.faab_spent.getD 0
    let start_week := r0.week
    let all_weeks := (rows.filter (fun r => start_week ≤ r.week)).map (·.week)
    let started_weeks := (rows.filter (fun r =>
      r.started && r.slot ∈ START_SLOTS && start_week ≤ r.week)).map (·.week)
    let pts_all := ptsOver stats tx.player_id all_weeks
    let pts_starting := ptsOver stats tx.player_id started_weeks
    some { tx_id := tx.tx_id, manager_id := tx.manager_id,
           player_id := tx.player_id,
           start_week := start_week, end_week := last_w,
           pts_all := pts_all, pts_starting := pts_starting,
           faab_spent := faab,
           pts_per_dollar_all := if faab > 0 then pts_all / faab else 0,
           pts_per_dollar_starting :=
             if faab > 0 then pts_starting / faab else 0 }

/-- `compute_faab_roi(sb)`: candidate adds are the transactions with
`type = "add"` and non-null `faab_spent`; `last_w` is the greatest roster
week (`order("week", desc=True).limit(1)`), and its absence aborts the
whole computation.  Returns the upserted records in emission order. -/
def compute_faab_roi (txs : List Transaction) (rosters : List RosterRow)
    (stats : List StatRow) : List FaabRec :=
  let adds := txs.filter (fun t => t.type = "add" && t.faab_spent.isSome)
  match (rosters.map (·.week)).max? with
  | none => []
  | some last_w => adds.filterMap (faabRecOf rosters stats last_w)

/-- draft_roi.py lines 20–63, for one draft pick (`none` is the
`continue` on an empty roster history). -/
def draftRecOf (rosters : List RosterRow) (stats : List StatRow)
    (pick : DraftPick) : Option DraftRec :=
  match rosterRowsFor rosters pick.manager_id pick.player_id with
  | [] => none
  | r0 :: rest =>
    let rows := r0 :: rest
    let all_weeks := rows.map (·.week)
    let started_weeks := (rows.filter (fun r =>
      r.started && r.slot ∈ START_SLOTS)).map (·.week)
    let pts_all := ptsOver stats pick.player_id all_weeks
    let pts_starting := ptsOver stats pick.player_id started_weeks
    some { manager_id := pick.manager_id, player_id := pick.player_id,
           draft_cost := pick.cost,
           pts_all := pts_all, pts_starting := pts_starting,
           pts_per_dollar_all :=
             if pick.cost > 0 then pts_all / pick.cost else 0,
           pts_per_dollar_starting :=
             if pick.cost > 0 then pts_starting / pick.cost else 0 }

/-- `compute_draft_roi(sb)`: every draft pick with roster history produces a
record; an empty pick table or an empty roster table aborts. -/
def compute_draft_roi (draft_picks : List DraftPick)
    (rosters : List RosterRow) (stats : List StatRow) : List DraftRec :=
  if draft_picks = [] then []
  else
    match (rosters.map (·.week)).max? with
    | none => []
    | some _ => draft_picks.filterMap (draftRecOf rosters stats)

end Roi

namespace Playoff

/-- One row of the `matchups` table as selected by the simulator
(`team_a,team_b,score_a,score_b`). -/
structure PMRow where
  team_a : String
  team_b : String
  score_a : Option ℚ
  score_b : Option ℚ
deriving DecidableEq, Repr

/-- One row of the `schedule` table. -/
structure SchedRow where
  week : Nat
  team_a : String
  team_b : String
deriving DecidableEq, Repr

open ExpectedWins (addScore orZero)

/-- playoff_odds.py lines 9–12: per-team historical score lists; a side's
score is appended only when it is non-null. -/
def buildTotals (mts : List PMRow) : List (String × List ℚ) :=
  mts.foldl (fun m r =>
    let m1 := match r.score_a with
      | some s => addScore m r.team_a s
      | none => m
    match r.score_b with
    | some s => addScore m1 r.team_b s
    | none => m1) []

/-- Line 13: `draws = {t: (np.array(v) if v else np.array([100.0])) for t,v in totals.items()}`. -/
def buildDraws (totals : List (String × List ℚ)) : List (String × List ℚ) :=
  totals.map (fun p => (p.1, if p.2 = [] then [(100 : ℚ)] else p.2))

/-- Lines 15–21, wins: the final value of `wins[t]` after the standings
loop, written as the sum of each completed row's contribution (the loop
accumulates exactly these terms). -/
def winContrib (r : PMRow) (t : String) : ℚ :=
  let sa := orZero r.score_a
  let sb := orZero r.score_b
  if sa > sb then (if r.team_a = t then 1 else 0)
  else if sb > sa then (if r.team_b = t then 1 else 0)
  else (if r.team_a = t then 1/2 else 0) + (if r.team_b = t then 1/2 else 0)

def winsOf (mts : List PMRow) (t : String) : ℚ :=
  (mts.map (fun r => winContrib r t)).sum

/-- Lines 15–18, points-for: the final value of `pf[t]`. -/
def pfOf (mts : List PMRow) (t : String) : ℚ :=
  (mts.map (fun r =>
    (if r.team_a = t then orZero r.score_a else 0) +
      (if r.team_b = t then orZero r.score_b else 0))).sum

/-- `draws.get(t, draws[teams[0]])` (lines 32–33).  Python evaluates the
default argument `draws[teams[0]]` eagerly on every call: an empty team
list raises `IndexError` and a first team absent from `draws` raises
`KeyError`, even when `t` itself is present. -/
def getPool (draws : List (String × List ℚ)) (teams : List String)
    (t : String) : Except Unit (List ℚ) :=
  match teams with
  | [] => Except.error ()
  | t0 :: _ =>
    match alookup draws t0 with
    | none => Except.error ()
    | some dflt => Except.ok ((alookup draws t).getD dflt)

/-- `np.random.choice(pool)` under the choice stream `rand` at draw counter
`k`: uniform sampling is modelled by letting the stream pick the index.
`np.random.choice` of an empty pool raises. -/
def drawScore (pool : List ℚ) (rand : Nat → Nat) (k : Nat) : Except Unit ℚ :=
  match pool with
  | [] => Except.error ()
  | _ => Except.ok (pool.getD (rand k % pool.length) 0)

/-- Pointwise bump of a tally function (`d[t] += x`). -/
def addTo (f : String → ℚ) (t : String) (x : ℚ) : String → ℚ :=
  fun u => if u = t then f u + x else f u

/-- Simulation state inside one trial: cumulative wins `W`, points-for
`PF`, and the draw counter of the choice stream. -/
structure SimSt where
  W : String → ℚ
  PF : String → ℚ
  ctr : Nat

/-- Lines 30–37: one remaining scheduled matchup inside a trial; any
failed pool lookup or empty-pool draw propagates as the exception it is in
Python. -/
def simMatch (draws : List (String × List ℚ)) (teams : List String)
    (rand : Nat → Nat) (st : SimSt) (s : SchedRow) : Except Unit SimSt :=
  match getPool draws teams s.team_a with
  | .error e => .error e
  | .ok poolA =>
    match getPool draws teams s.team_b with
    | .error e => .error e
    | .ok poolB =>
      match drawScore poolA rand st.ctr with
      | .error e => .error e
      | .ok sa =>
        match drawScore poolB rand (st.ctr + 1) with
        | .error e => .error e
        | .ok sb =>
          let PF := addTo (addTo st.PF s.team_a sa) s.team_b sb
          let W :=
            if sa > sb then addTo st.W s.team_a 1
            else if sb > sa then addTo st.W s.team_b 1
            else addTo (addTo st.W s.team_a (1/2)) s.team_b (1/2)
          .ok ⟨W, PF, st.ctr + 2⟩

/-- The inner `for s in sched` loop of one trial. -/
def simSched (draws : List (String × List ℚ)) (teams : List String)
    (rand : Nat → Nat) : List SchedRow → SimSt → Except Unit SimSt
  | [], st => .ok st
  | s :: rest, st =>
    match simMatch draws teams rand st s with
    | .error e => .error e
    | .ok st' => simSched draws teams rand rest st' 

/-- `final = sorted(teams, key=lambda t: (W[t], PF[t]), reverse=True)`:
descending lexicographic order on `(wins, points-for)`. -/
def descKey (W PF : String → ℚ) (x y : String) : Prop :=
  W y < W x ∨ (W x = W y ∧ PF y ≤ PF x)

instance (W PF : String → ℚ) : DecidableRel (descKey W PF) := fun x y => by
  unfold descKey; infer_instance

def finalRank (W PF : String → ℚ) (teams : List String) : List String :=
  List.insertionSort (descKey W PF) teams

/-- Lines 28–41: the trial loop.  Each trial replays the remaining schedule
from the actual standings, ranks, and counts playoff (`top playoff_teams`)
and bye (`top 2`) finishes; counts are per-team tallies. -/
def runTrials (draws : List (String × List ℚ)) (teams : List String)
    (rand : Nat → Nat) (sched : List SchedRow) (W0 PF0 : String → ℚ)
    (playoff_teams : Nat) :
    Nat → Nat → (String → Nat) → (String → Nat) →
      Except Unit ((String → Nat) × (String → Nat) × Nat)
  | 0, ctr, pl, byes => Except.ok (pl, byes, ctr)
  | n + 1, ctr, pl, byes =>
    match simSched draws teams rand sched ⟨W0, PF0, ctr⟩ with
    | .error e => .error e
    | .ok st =>
      let final := finalRank st.W st.PF teams
      runTrials draws teams rand sched W0 PF0 playoff_teams n st.ctr
        (fun t => pl t + (if t ∈ final.take playoff_teams then 1 else 0))
        (fun t => byes t + (if t ∈ final.take 2 then 1 else 0))

/-- One entry of the returned odds dictionary. -/
structure OddsRec where
  manager_id : String
  playoff : ℚ
  bye : ℚ
deriving DecidableEq, Repr

instance : IsTotal SchedRow (fun x y => x.week ≤ y.week) :=
  ⟨fun a b => Nat.le_total a.week b.week⟩

instance : IsTrans SchedRow (fun x y => x.week ≤ y.week) :=
  ⟨fun _ _ _ => Nat.le_trans⟩

/-- `simulate_playoff_odds(sb, n_sims, playoff_teams)`.  `Except.ok none`
is the `return None` taken when no schedule rows exist; `Except.error ()`
is an uncaught Python exception (`KeyError`/`IndexError` from the eager
pool default, or `ZeroDivisionError` from `playoffs[t]/n_sims` when
`n_sims = 0` and at least one team entry is built). -/
def simulate_playoff_odds (teams : List String) (mts : List PMRow)
    (sched : List SchedRow) (rand : Nat → Nat) (n_sims : Nat := 20000)
    (playoff_teams : Nat := 6) : Except Unit (Option (List OddsRec)) :=
  let totals := buildTotals mts
  let draws := buildDraws totals
  let W0 := winsOf mts
  let PF0 := pfOf mts
  let sched := List.insertionSort (fun x y => x.week ≤ y.week) sched
  if sched = [] then Except.ok none
  else
    match runTrials draws teams rand sched W0 PF0 playoff_teams n_sims 0
        (fun _ => 0) (fun _ => 0) with
    | .error e => .error e
    | .ok r =>
      if n_sims = 0 ∧ teams ≠ [] then Except.error ()
      else
        Except.ok (some (teams.map (fun t =>
          ⟨t, (r.1 t : ℚ) / n_sims, (r.2.1 t : ℚ) / n_sims⟩)))

end Playoff

namespace ExpectedWins

/-- Concrete monotone stand-in for `Φ` used to evaluate the model at
concrete inputs (`Φ` itself is transcendental): linear, `phiLin 0 = 1/2`,
strictly monotone. -/
def phiLin : ℚ → ℚ := fun z => 1/2 + z/4

/-- Concrete stand-in for `(d, v) ↦ Φ(d / sqrt v)`, linear in `d`. -/
def phiDivLin : ℚ → ℚ → ℚ := fun d _ => 1/2 + d/4

/-- A three-week, two-team season: A scores 100, 200, 100; B always 100. -/
def mtsLeakA : List MRow :=
  [⟨1, "A", "B", some 100, some 100⟩,
   ⟨2, "A", "B", some 200, some 100⟩,
   ⟨3, "A", "B", some 100, some 100⟩]

/-- Same season except A's week-2 score is 100 instead of 200: the two
seasons agree on every score observed strictly before week 2. -/
def mtsLeakB : List MRow :=
  [⟨1, "A", "B", some 100, some 100⟩,
   ⟨2, "A", "B", some 100, some 100⟩,
   ⟨3, "A", "B", some 100, some 100⟩]

end ExpectedWins

namespace Lineup

/-- `Sel elig slots avail sel`: `sel` is a feasible assignment for the ILP
of lines 34–47 — slot by slot it either leaves the slot instance empty or
fills it with a still-available player whose eligible set contains the
slot's label. -/
inductive Sel (elig : String → List String) :
    List String → List String → List (Option String) → Prop
  | nil (avail : List String) : Sel elig [] avail []
  | skip {rest avail sel} (s : String) (h : Sel elig rest avail sel) :
      Sel elig (s :: rest) avail (none :: sel)
  | pick {rest avail sel} (s : String) {p : String}
      (hp : p ∈ avail) (he : s ∈ elig p)
      (h : Sel elig rest (avail.erase p) sel) :
      Sel elig (s :: rest) avail (some p :: sel)

/-- Total points of an assignment's chosen players. -/
def selValue (pts : String → ℚ) (sel : List (Option String)) : ℚ :=
  ((sel.filterMap id).map pts).sum

/-- Modelled from the spec (§4.1 "Actual points = sum of points for players
flagged `started=true` whose slot is a scoring (non-bench/IR) slot"), for
comparison with the source's `actualPts`, which has no slot condition. -/
def specActualPts (roster : List RosterRow) (pts : String → ℚ) : ℚ :=
  ((roster.filter (fun r => r.started && !(r.slot ∈ ["BN", "IR"]))).map
    (fun r => pts r.player_id)).sum

end Lineup

namespace Roi

/-- Modelled from the spec (§4.3 step 1: "`start_week` = first week the
player appears on that manager's roster at or after the transaction/draft
event"), for comparison with the source's `start_week`, which ignores the
transaction timestamp. -/
def specStartWeek (rosters : List Lineup.RosterRow) (tx : Transaction) :
    Option Nat :=
  (((rosterRowsFor rosters tx.manager_id tx.player_id).filter
    (fun r => tx.ts ≤ r.week)).head?).map (·.week)

end Roi

section MaxHelpers

lemma le_foldl_max_init (l : List ℚ) : ∀ a : ℚ, a ≤ l.foldl max a := by
  induction l with
  | nil => intro a; simp
  | cons x xs ih =>
    intro a
    calc a ≤ max a x := le_max_left a x
    _ ≤ xs.foldl max (max a x) := ih (max a x)
    _ = (x :: xs).foldl max a := rfl

lemma le_foldl_max_mem {l : List ℚ} {b : ℚ} (hb : b ∈ l) (a : ℚ) :
    b ≤ l.foldl max a := by
  induction l generalizing a with
  | nil => simp at hb
  | cons x xs ih =>
    rcases List.mem_cons.mp hb with h | h
    · subst h
      calc b ≤ max a b := le_max_right a b
      _ ≤ xs.foldl max (max a b) := le_foldl_max_init xs (max a b)
      _ = (b :: xs).foldl max a := rfl
    · exact ih h (max a x)

end MaxHelpers

/-- Helper: the scoring loop emits records in consecutive pairs whose win
probabilities sum to 1 (`p_b = 1 - p_a` by construction). -/
lemma ewLoop_pair_sum (phi : ℚ → ℚ) (phiDiv : ℚ → ℚ → ℚ)
    (totals : List (String × List ℚ)) :
    ∀ (rows : List ExpectedWins.MRow) (cum : String → ℚ) (k : Nat)
      (h : 2 * k + 1 < (ExpectedWins.ewLoop phi phiDiv totals cum rows).length),
      (ExpectedWins.ewLoop phi phiDiv totals cum rows)[2 * k].p_win +
        (ExpectedWins.ewLoop phi phiDiv totals cum rows)[2 * k + 1].p_win
      = 1 := by
  intro rows
  induction rows with
  | nil => intro cum k h; simp [ExpectedWins.ewLoop] at h
  | cons row rest ih =>
    intro cum k h
    match k with
    | 0 =>
      simp [ExpectedWins.ewLoop]
    | k' + 1 =>
      simp only [ExpectedWins.ewLoop, List.length_cons] at h
      have e1 : 2 * (k' + 1) = 2 * k' + 1 + 1 := by ring
      have e2 : 2 * (k' + 1) + 1 = 2 * k' + 1 + 1 + 1 := by ring
      simp only [ExpectedWins.ewLoop, e1, e2, List.getElem_cons_succ]
      exact ih _ k' (by omega)

/-- C6: for every matchup processed by the Expected-Win model, the two
emitted win probabilities sum exactly to 1 — the output comes in
consecutive same-week pairs (side A at index `2k`, side B at `2k+1`) and
the second side's probability is defined as `1 -` the first side's. -/
theorem expected_wins_pair_sum (phi : ℚ → ℚ) (phiDiv : ℚ → ℚ → ℚ)
    (mts : List ExpectedWins.MRow) (max_week : Nat) (k : Nat)
    (h : 2 * k + 1 <
      (ExpectedWins.compute_expected_wins phi phiDiv mts max_week).length) :
    (ExpectedWins.compute_expected_wins phi phiDiv mts max_week)[2 * k].p_win +
      (ExpectedWins.compute_expected_wins phi phiDiv mts max_week)[2 * k + 1].p_win
    = 1 := by
  unfold ExpectedWins.compute_expected_wins at h ⊢
  exact ewLoop_pair_sum phi phiDiv _ _ _ k h

/-- Witness for C6 at a concrete two-matchup input (`k = 0` and `k = 1`). -/
theorem expected_wins_pair_sum_witness :
    (2 * 1 + 1 <
      (ExpectedWins.compute_expected_wins ExpectedWins.phiLin
        ExpectedWins.phiDivLin
        [⟨1, "A", "B", some 100, some 90⟩, ⟨2, "A", "B", some 80, some 95⟩]
        14).length) ∧
    (ExpectedWins.compute_expected_wins ExpectedWins.phiLin
        ExpectedWins.phiDivLin
        [⟨1, "A", "B", some 100, some 90⟩, ⟨2, "A", "B", some 80, some 95⟩]
        14)[2 * 1].p_win +
      (ExpectedWins.compute_expected_wins ExpectedWins.phiLin
        ExpectedWins.phiDivLin
        [⟨1, "A", "B", some 100, some 90⟩, ⟨2, "A", "B", some 80, some 95⟩]
        14)[2 * 1 + 1].p_win = 1 :=
  ⟨by decide, expected_wins_pair_sum ExpectedWins.phiLin ExpectedWins.phiDivLin
    [⟨1, "A", "B", some 100, some 90⟩, ⟨2, "A", "B", some 80, some 95⟩]
    14 1 (by decide)⟩

/-- Helper: what a successfully emitted FAAB record looks like in terms of
its transaction. -/
lemma faabRecOf_fields {rosters : List Lineup.RosterRow}
    {stats : List Lineup.StatRow} {lw : Nat} {tx : Roi.Transaction}
    {rec : Roi.FaabRec} (h : Roi.faabRecOf rosters stats lw tx = some rec) :
    rec.tx_id = tx.tx_id ∧ rec.manager_id = tx.manager_id ∧
    rec.player_id = tx.player_id ∧
    rec.faab_spent = tx.faab_spent.getD 0 ∧
    rec.pts_per_dollar_all =
      (if (tx.faab_spent.getD 0 : Int) > 0
        then rec.pts_all / (tx.faab_spent.getD 0 : Int) else 0) ∧
    rec.pts_per_dollar_starting =
      (if (tx.faab_spent.getD 0 : Int) > 0
        then rec.pts_starting / (tx.faab_spent.getD 0 : Int) else 0) ∧
    Roi.rosterRowsFor rosters tx.manager_id tx.player_id ≠ [] := by
  unfold Roi.faabRecOf at h
  split at h
  · exact absurd h (by simp)
  · rename_i r0 rest heq
    injection h with h
    subst h
    refine ⟨rfl, rfl, rfl, rfl, rfl, rfl, by simp [heq]⟩

/-- Helper: an `add` transaction with roster history always yields a
record, with the transaction's identifying fields. -/
lemma faabRecOf_exists (stats : List Lineup.StatRow) (lw : Nat)
    {rosters : List Lineup.RosterRow} {tx : Roi.Transaction}
    (h : Roi.rosterRowsFor rosters tx.manager_id tx.player_id ≠ []) :
    ∃ rec, Roi.faabRecOf rosters stats lw tx = some rec ∧
      rec.tx_id = tx.tx_id ∧ rec.manager_id = tx.manager_id ∧
      rec.player_id = tx.player_id := by
  unfold Roi.faabRecOf
  split
  · rename_i heq; exact absurd heq h
  · exact ⟨_, rfl, rfl, rfl, rfl⟩

/-- Helper: membership in the draft ROI output, in terms of the pick. -/
lemma draftRecOf_fields {rosters : List Lineup.RosterRow}
    {stats : List Lineup.StatRow} {pick : Roi.DraftPick}
    {rec : Roi.DraftRec} (h : Roi.draftRecOf rosters stats pick = some rec) :
    rec.draft_cost = pick.cost ∧
    rec.pts_per_dollar_all =
      (if pick.cost > 0 then rec.pts_all / pick.cost else 0) ∧
    rec.pts_per_dollar_starting =
      (if pick.cost > 0 then rec.pts_starting / pick.cost else 0) := by
  unfold Roi.draftRecOf at h
  split at h
  · exact absurd h (by simp)
  · injection h with h
    subst h
    exact ⟨rfl, rfl, rfl⟩

/-- C8: in both ROI variants, an acquisition cost `≤ 0` makes both emitted
per-cost ratios exactly 0 — the `cost > 0` guard short-circuits before any
division is attempted. -/
theorem roi_zero_cost :
    (∀ (txs : List Roi.Transaction) (rosters : List Lineup.RosterRow)
      (stats : List Lineup.StatRow) (rec : Roi.FaabRec),
      rec ∈ Roi.compute_faab_roi txs rosters stats →
      rec.faab_spent ≤ 0 →
      rec.pts_per_dollar_all = 0 ∧ rec.pts_per_dollar_starting = 0) ∧
    (∀ (picks : List Roi.DraftPick) (rosters : List Lineup.RosterRow)
      (stats : List Lineup.StatRow) (rec : Roi.DraftRec),
      rec ∈ Roi.compute_draft_roi picks rosters stats →
      rec.draft_cost ≤ 0 →
      rec.pts_per_dollar_all = 0 ∧ rec.pts_per_dollar_starting = 0) := by
  constructor
  · intro txs rosters stats rec hmem hcost
    unfold Roi.compute_faab_roi at hmem
    split at hmem
    · simp at hmem
    · rw [List.mem_filterMap] at hmem
      obtain ⟨tx, _, heq⟩ := hmem
      obtain ⟨-, -, -, hfa, hall, hstart, -⟩ := faabRecOf_fields heq
      rw [hfa] at hcost
      constructor
      · rw [hall, if_neg (by omega)]
      · rw [hstart, if_neg (by omega)]
  · intro picks rosters stats rec hmem hcost
    unfold Roi.compute_draft_roi at hmem
    split at hmem
    · simp at hmem
    · split at hmem
      · simp at hmem
      · rw [List.mem_filterMap] at hmem
        obtain ⟨pick, _, heq⟩ := hmem
        obtain ⟨hfa, hall, hstart⟩ := draftRecOf_fields heq
        rw [hfa] at hcost
        constructor
        · rw [hall, if_neg (by omega)]
        · rw [hstart, if_neg (by omega)]

/-- Witness for C8: a zero-FAAB pickup and a zero-cost draft pick, each
producing 50 points, both report 0 points-per-cost. -/
theorem roi_zero_cost_witness :
    ((⟨"t1", "m", "p", 1, 1, 50, 50, 0, 0, 0⟩ : Roi.FaabRec) ∈
        Roi.compute_faab_roi [⟨"t1", 1, "add", "m", "p", some 0⟩]
          [⟨1, "m", "p", "QB", true⟩] [⟨1, "p", 50⟩] ∧
      (⟨"t1", "m", "p", 1, 1, 50, 50, 0, 0, 0⟩ : Roi.FaabRec).faab_spent ≤ 0 ∧
      (⟨"t1", "m", "p", 1, 1, 50, 50, 0, 0, 0⟩ : Roi.FaabRec).pts_per_dollar_all = 0 ∧
      (⟨"t1", "m", "p", 1, 1, 50, 50, 0, 0, 0⟩ : Roi.FaabRec).pts_per_dollar_starting = 0) ∧
    ((⟨"m", "p", 0, 50, 50, 0, 0⟩ : Roi.DraftRec) ∈
        Roi.compute_draft_roi [⟨"m", "p", 0⟩]
          [⟨1, "m", "p", "QB", true⟩] [⟨1, "p", 50⟩] ∧
      (⟨"m", "p", 0, 50, 50, 0, 0⟩ : Roi.DraftRec).draft_cost ≤ 0 ∧
      (⟨"m", "p", 0, 50, 50, 0, 0⟩ : Roi.DraftRec).pts_per_dollar_all = 0 ∧
      (⟨"m", "p", 0, 50, 50, 0, 0⟩ : Roi.DraftRec).pts_per_dollar_starting = 0) := by
  have h1 : Roi.compute_faab_roi [⟨"t1", 1, "add", "m", "p", some 0⟩]
      [⟨1, "m", "p", "QB", true⟩] [⟨1, "p", 50⟩]
      = [⟨"t1", "m", "p", 1, 1, 50, 50, 0, 0, 0⟩] := by
    norm_num [Roi.compute_faab_roi, Roi.faabRecOf, Roi.rosterRowsFor,
      Roi.ptsOver, Roi.START_SLOTS, List.insertionSort, List.orderedInsert,
      List.filterMap_cons, List.filterMap_nil]
  have h2 : Roi.compute_draft_roi [⟨"m", "p", 0⟩]
      [⟨1, "m", "p", "QB", true⟩] [⟨1, "p", 50⟩]
      = [⟨"m", "p", 0, 50, 50, 0, 0⟩] := by
    norm_num [Roi.compute_draft_roi, Roi.draftRecOf, Roi.rosterRowsFor,
      Roi.ptsOver, Roi.START_SLOTS, List.insertionSort, List.orderedInsert,
      List.filterMap_cons, List.filterMap_nil]
  have m1 : (⟨"t1", "m", "p", 1, 1, 50, 50, 0, 0, 0⟩ : Roi.FaabRec) ∈
      Roi.compute_faab_roi [⟨"t1", 1, "add", "m", "p", some 0⟩]
        [⟨1, "m", "p", "QB", true⟩] [⟨1, "p", 50⟩] := by
    rw [h1]; exact List.mem_singleton_self _
  have m2 : (⟨"m", "p", 0, 50, 50, 0, 0⟩ : Roi.DraftRec) ∈
      Roi.compute_draft_roi [⟨"m", "p", 0⟩]
        [⟨1, "m", "p", "QB", true⟩] [⟨1, "p", 50⟩] := by
    rw [h2]; exact List.mem_singleton_self _
  exact ⟨⟨m1, by decide,
      roi_zero_cost.1 [⟨"t1", 1, "add", "m", "p", some 0⟩]
        [⟨1, "m", "p", "QB", true⟩] [⟨1, "p", 50⟩] _ m1 (by decide)⟩,
    ⟨m2, by decide,
      roi_zero_cost.2 [⟨"m", "p", 0⟩]
        [⟨1, "m", "p", "QB", true⟩] [⟨1, "p", 50⟩] _ m2 (by decide)⟩⟩

/-- Helper: a nonempty `(manager, player)` roster query forces a nonempty
roster table, hence a defined `last_w`. -/
lemma rosterRowsFor_ne_nil_rosters {rosters : List Lineup.RosterRow}
    {mid pid : String} (h : Roi.rosterRowsFor rosters mid pid ≠ []) :
    ∃ lw, (rosters.map (·.week)).max? = some lw := by
  cases rosters with
  | nil => exact absurd rfl h
  | cons r rs => exact ⟨_, rfl⟩

/-- C10: the FAAB ROI attributor emits a record exactly for the
transactions of type `"add"` with non-null `faab_spent` whose
`(manager, player)` pair has at least one roster row; every emitted record
carries such a transaction's identifiers, and every such transaction (when
the roster table is nonempty, which its roster rows force) yields a
record.  Drops, trades, commish moves and null-FAAB adds never produce
records. -/
theorem faab_roi_emission (txs : List Roi.Transaction)
    (rosters : List Lineup.RosterRow) (stats : List Lineup.StatRow) :
    (∀ rec ∈ Roi.compute_faab_roi txs rosters stats,
      ∃ tx ∈ txs, tx.type = "add" ∧ tx.faab_spent.isSome ∧
        Roi.rosterRowsFor rosters tx.manager_id tx.player_id ≠ [] ∧
        rec.tx_id = tx.tx_id ∧ rec.manager_id = tx.manager_id ∧
        rec.player_id = tx.player_id) ∧
    (∀ tx ∈ txs, tx.type = "add" → tx.faab_spent.isSome →
      Roi.rosterRowsFor rosters tx.manager_id tx.player_id ≠ [] →
      ∃ rec ∈ Roi.compute_faab_roi txs rosters stats,
        rec.tx_id = tx.tx_id ∧ rec.manager_id = tx.manager_id ∧
        rec.player_id = tx.player_id) := by
  constructor
  · intro rec hmem
    unfold Roi.compute_faab_roi at hmem
    split at hmem
    · simp at hmem
    · rw [List.mem_filterMap] at hmem
      obtain ⟨tx, htx, heq⟩ := hmem
      rw [List.mem_filter] at htx
      obtain ⟨htxs, hcond⟩ := htx
      rw [Bool.and_eq_true, decide_eq_true_eq] at hcond
      obtain ⟨h1, h2, h3, -, -, -, h7⟩ := faabRecOf_fields heq
      exact ⟨tx, htxs, hcond.1, hcond.2, h7, h1, h2, h3⟩
  · intro tx htx hty hfa hros
    obtain ⟨lw, hlw⟩ := rosterRowsFor_ne_nil_rosters hros
    obtain ⟨rec, hrec, hf⟩ :=
      faabRecOf_exists stats lw hros
    refine ⟨rec, ?_, hf⟩
    unfold Roi.compute_faab_roi
    rw [hlw]
    exact List.mem_filterMap.mpr
      ⟨tx, List.mem_filter.mpr ⟨htx, by simp [hty, hfa]⟩, hrec⟩

/-- Witness for C10: a concrete snapshot with one qualifying add and one
drop; the add produces a record. -/
theorem faab_roi_emission_witness :
    ∃ rec ∈ Roi.compute_faab_roi
      [⟨"t1", 1, "add", "m", "p", some 3⟩, ⟨"t2", 1, "drop", "m", "p", none⟩]
      [⟨2, "m", "p", "RB", true⟩] [],
      rec.tx_id = "t1" ∧ rec.manager_id = "m" ∧ rec.player_id = "p" :=
  (faab_roi_emission
      [⟨"t1", 1, "add", "m", "p", some 3⟩, ⟨"t2", 1, "drop", "m", "p", none⟩]
      [⟨2, "m", "p", "RB", true⟩] []).2
    ⟨"t1", 1, "add", "m", "p", some 3⟩ (by decide) rfl rfl (by decide)

/-- C4 (code bug): `compute_faab_roi` never consults the transaction's
timestamp.  For a transaction whose event is at week 5 on a player the
manager also rostered back in week 1, the emitted `start_week` is 1 — the
first week the player *ever* appears on the manager's roster — while the
first roster week at or after the transaction event is 5. -/
theorem faab_start_week_ignores_event :
    ((Roi.compute_faab_roi [⟨"t1", 5, "add", "m", "p", some 10⟩]
        [⟨1, "m", "p", "BN", false⟩, ⟨5, "m", "p", "QB", true⟩] []).map
      (·.start_week)) = [1] ∧
    Roi.specStartWeek [⟨1, "m", "p", "BN", false⟩, ⟨5, "m", "p", "QB", true⟩]
      ⟨"t1", 5, "add", "m", "p", some 10⟩ = some 5 ∧
    (1 : Nat) ≠ 5 := by
  refine ⟨?_, by decide, by decide⟩
  norm_num [Roi.compute_faab_roi, Roi.faabRecOf, Roi.rosterRowsFor,
    Roi.ptsOver, Roi.START_SLOTS, List.insertionSort, List.orderedInsert,
    List.filterMap_cons, List.filterMap_nil]

/-- C5 (code bug): in the playoff simulator, a team with no historical
completed-matchup scores (here `"m2"`, absent from `totals`) is *not*
served the constant neutral pool `[100.0]`: the `.get` default
`draws[teams[0]]` hands it the first team's empirical distribution
(`[120]`, team `"m1"`'s scores).  The `[100.0]` branch of `buildDraws` is
unreachable because `totals` never holds an empty score list. -/
theorem playoff_fallback_uses_first_team :
    alookup (Playoff.buildTotals [⟨"m1", "m3", some 120, none⟩]) "m2"
      = none ∧
    Playoff.getPool
      (Playoff.buildDraws (Playoff.buildTotals [⟨"m1", "m3", some 120, none⟩]))
      ["m1", "m2"] "m2" = Except.ok [120] ∧
    ([(120 : ℚ)] : List ℚ) ≠ [100] := by
  refine ⟨by decide, by rfl, by norm_num⟩

/-- C1 (code bug): the week-2 probability is *not* a function of the
scores observed strictly before week 2.  `mtsLeakA` and `mtsLeakB` agree
on every week-1 score (indeed on everything except A's own week-2 score),
yet the emitted week-2 `p_win` for team A differs: the history used is the
team's season-wide score list with only its final element dropped, so A's
own week-2 score (and, in longer seasons, later scores) enters its own
week-2 estimate. -/
theorem expected_wins_uses_current_week_score :
    (ExpectedWins.mtsLeakA.filter (fun r => r.week < 2)
      = ExpectedWins.mtsLeakB.filter (fun r => r.week < 2)) ∧
    ((ExpectedWins.compute_expected_wins ExpectedWins.phiLin
        ExpectedWins.phiDivLin ExpectedWins.mtsLeakA 14).map
      (fun r => (r.week, r.manager_id, r.p_win)))[2]?
      = some (2, "A", 53/6) ∧
    ((ExpectedWins.compute_expected_wins ExpectedWins.phiLin
        ExpectedWins.phiDivLin ExpectedWins.mtsLeakB 14).map
      (fun r => (r.week, r.manager_id, r.p_win)))[2]?
      = some (2, "A", 1/2) ∧
    ((53 : ℚ)/6) ≠ 1/2 := by
  refine ⟨by decide, ?_, ?_, by norm_num⟩
  · simp [ExpectedWins.compute_expected_wins, ExpectedWins.ewLoop,
      ExpectedWins.mtsLeakA, ExpectedWins.buildTotals, ExpectedWins.addScore,
      ExpectedWins.totalsGet, ExpectedWins.histOf, ExpectedWins.muVar,
      ExpectedWins.npMean, ExpectedWins.popVar, ExpectedWins.histEstimate,
      ExpectedWins.pWinA, ExpectedWins.orZero, ExpectedWins.phiLin,
      ExpectedWins.phiDivLin, alookup, List.insertionSort,
      List.orderedInsert, min_def]
    norm_num
  · simp [ExpectedWins.compute_expected_wins, ExpectedWins.ewLoop,
      ExpectedWins.mtsLeakB, ExpectedWins.buildTotals, ExpectedWins.addScore,
      ExpectedWins.totalsGet, ExpectedWins.histOf, ExpectedWins.muVar,
      ExpectedWins.npMean, ExpectedWins.popVar, ExpectedWins.histEstimate,
      ExpectedWins.pWinA, ExpectedWins.orZero, ExpectedWins.phiLin,
      ExpectedWins.phiDivLin, alookup, List.insertionSort,
      List.orderedInsert, min_def]
    norm_num

/-- Helper: every record emitted by `compute_lineup_efficiency` is the
record computed from the nonempty roster of its own `(week, manager)`. -/
lemma mem_lineup_efficiency {rosters : List Lineup.RosterRow}
    {stats : List Lineup.StatRow} {managers : List String}
    {players : List Lineup.PlayerRow} {mw : Nat} {rec : Lineup.LERec}
    (hmem : rec ∈ Lineup.compute_lineup_efficiency rosters stats managers
      players mw) :
    Lineup.rosterFor rosters rec.week rec.manager_id ≠ [] ∧
    rec = Lineup.leRecord players rec.week rec.manager_id
      (Lineup.rosterFor rosters rec.week rec.manager_id)
      (Lineup.ptsFor stats rec.week) := by
  unfold Lineup.compute_lineup_efficiency at hmem
  rw [List.mem_flatMap] at hmem
  obtain ⟨w, hw, hmem⟩ := hmem
  rw [List.mem_filterMap] at hmem
  obtain ⟨mid, hmid, hrec⟩ := hmem
  dsimp only at hrec
  split at hrec
  · exact absurd hrec (by simp)
  · injection hrec with hrec
    subst hrec
    rename_i hne
    exact ⟨hne, rfl⟩

set_option maxHeartbeats 1000000 in
/-- C3 counterexample: a roster whose single entry is `started = true` but
sits in the bench slot `"BN"`.  The emitted `actual_pts` is 7 — the bench
starter's points are counted — whereas the spec's "started *and* in a
scoring (non-bench/IR) slot" sum is 0. -/
theorem lineup_actual_counts_bench_starts :
    ((Lineup.compute_lineup_efficiency [⟨1, "m1", "p1", "BN", true⟩]
        [⟨1, "p1", 7⟩] ["m1"] [] 14).map (·.actual_pts)) = [7] ∧
    Lineup.specActualPts [⟨1, "m1", "p1", "BN", true⟩]
      (Lineup.ptsFor [⟨1, "p1", 7⟩] 1) = 0 ∧
    (7 : ℚ) ≠ 0 := by
  refine ⟨?_, ?_, by norm_num⟩

  · simp [Lineup.compute_lineup_efficiency, Lineup.leRecord,
      Lineup.rosterFor, Lineup.ptsFor, Lineup.eligFor, Lineup.actualPts,
      Lineup.best, Lineup.STARTING_SLOTS, dictGetD, List.insertionSort,
      List.orderedInsert, List.filterMap_cons]
  · simp [Lineup.specActualPts, Lineup.ptsFor, dictGetD]

/-- C3 amended: the `actual_pts` of every emitted record is the sum of the
weekly points of exactly the roster entries flagged `started = true`,
regardless of the slot (bench/IR or scoring) each entry occupies. -/
theorem lineup_actual_is_started_sum (rosters : List Lineup.RosterRow)
    (stats : List Lineup.StatRow) (managers : List String)
    (players : List Lineup.PlayerRow) (mw : Nat) (rec : Lineup.LERec)
    (hmem : rec ∈ Lineup.compute_lineup_efficiency rosters stats managers
      players mw) :
    rec.actual_pts =
      (((Lineup.rosterFor rosters rec.week rec.manager_id).filter
          (·.started)).map
        (fun r => Lineup.ptsFor stats rec.week r.player_id)).sum := by
  obtain ⟨-, hrec⟩ := mem_lineup_efficiency hmem
  rw [hrec]
  rfl

set_option maxHeartbeats 1000000 in
/-- Witness for C3 at a concrete snapshot: a started bench player (7 pts)
and a started QB (10 pts) both count. -/
theorem lineup_actual_is_started_sum_witness :
    ∃ rec ∈ Lineup.compute_lineup_efficiency
      [⟨1, "m1", "p1", "BN", true⟩, ⟨1, "m1", "p2", "QB", true⟩]
      [⟨1, "p1", 7⟩, ⟨1, "p2", 10⟩] ["m1"] [⟨"p2", ["QB"]⟩] 14,
      rec.actual_pts =
        (((Lineup.rosterFor
              [⟨1, "m1", "p1", "BN", true⟩, ⟨1, "m1", "p2", "QB", true⟩]
              rec.week rec.manager_id).filter (·.started)).map
          (fun r => Lineup.ptsFor [⟨1, "p1", 7⟩, ⟨1, "p2", 10⟩] rec.week
            r.player_id)).sum := by
  have hne : Lineup.compute_lineup_efficiency
      [⟨1, "m1", "p1", "BN", true⟩, ⟨1, "m1", "p2", "QB", true⟩]
      [⟨1, "p1", 7⟩, ⟨1, "p2", 10⟩] ["m1"] [⟨"p2", ["QB"]⟩] 14 ≠ [] := by
    simp [Lineup.compute_lineup_efficiency, Lineup.rosterFor,
      List.insertionSort, List.orderedInsert, List.filterMap_cons]
  obtain ⟨rec, hrec⟩ := List.exists_mem_of_ne_nil _ hne
  exact ⟨rec, hrec, lineup_actual_is_started_sum _ _ _ _ _ _ hrec⟩

/-- Helper: the value of any feasible ILP assignment is at most `best` —
the actual maximization dominates every feasible slot assignment. -/
lemma sel_le_best (elig : String → List String) (pts : String → ℚ)
    {slots avail : List String} {sel : List (Option String)}
    (h : Lineup.Sel elig slots avail sel) :
    Lineup.selValue pts sel ≤ Lineup.best elig pts slots avail := by
  induction h with
  | nil avail => simp [Lineup.selValue, Lineup.best]
  | skip s h ih =>
    rename_i rest avail sel
    calc Lineup.selValue pts (none :: sel)
        = Lineup.selValue pts sel := by simp [Lineup.selValue]
      _ ≤ Lineup.best elig pts rest avail := ih
      _ ≤ Lineup.best elig pts (s :: rest) avail :=
        le_foldl_max_init _ _
  | pick s hp he h ih =>
    rename_i rest avail sel p
    have hmem : pts p + Lineup.best elig pts rest (avail.erase p) ∈
        (avail.filter (fun q => s ∈ elig q)).map
          (fun q => pts q + Lineup.best elig pts rest (avail.erase q)) :=
      List.mem_map.mpr ⟨p, List.mem_filter.mpr ⟨hp, by simpa using he⟩, rfl⟩
    calc Lineup.selValue pts (some p :: sel)
        = pts p + Lineup.selValue pts sel := by simp [Lineup.selValue]
      _ ≤ pts p + Lineup.best elig pts rest (avail.erase p) := by linarith
      _ ≤ Lineup.best elig pts (s :: rest) avail := le_foldl_max_mem hmem _

/-- Helper: when no available player is eligible for any slot, the ILP
optimum is 0 (every slot stays empty). -/
lemma best_eq_zero_of_no_elig (elig : String → List String)
    (pts : String → ℚ) :
    ∀ (slots avail : List String), (∀ p ∈ avail, ∀ s ∈ slots, s ∉ elig p) →
      Lineup.best elig pts slots avail = 0 := by
  intro slots
  induction slots with
  | nil => intro avail h; simp [Lineup.best]
  | cons s rest ih =>
    intro avail h
    have hf : avail.filter (fun p => s ∈ elig p) = [] := by
      rw [List.filter_eq_nil_iff]
      intro p hp
      simpa using h p hp s (List.mem_cons_self _ _)
    simp only [Lineup.best, hf, List.map_nil, List.foldl_nil]
    exact ih avail (fun p hp s' hs' => h p hp s' (List.mem_cons_of_mem _ hs'))

set_option maxHeartbeats 1000000 in
/-- C2 counterexample: a started QB worth 10 plus a started bench player
(5 pts, absent from the `players` table, hence eligible nowhere) give
`actual_pts = 15` but `optimal_pts = 10`: the record violates
`optimal_pts ≥ actual_pts`, has `efficiency = 3/2 > 1` (no cap is applied
in the code), and `efficiency ∉ (0, 1]` despite `optimal_pts > 0`. -/
theorem lineup_efficiency_unbounded :
    ((Lineup.compute_lineup_efficiency
        [⟨1, "m1", "p1", "QB", true⟩, ⟨1, "m1", "p2", "BN", true⟩]
        [⟨1, "p1", 10⟩, ⟨1, "p2", 5⟩] ["m1"] [⟨"p1", ["QB"]⟩] 14).map
      (fun r => (r.actual_pts, r.optimal_pts, r.efficiency)))
      = [(15, 10, 3/2)] ∧
    ¬((10 : ℚ) ≥ 15) ∧ ¬((3 : ℚ)/2 ≤ 1) ∧ (0 : ℚ) < 10 := by
  refine ⟨?_, by norm_num, by norm_num, by norm_num⟩
  have hstep : ∀ (s : String) (rest avail : List String),
      Lineup.best (Lineup.eligFor [⟨"p1", ["QB"]⟩] ["p1", "p2"])
        (Lineup.ptsFor [⟨1, "p1", 10⟩, ⟨1, "p2", 5⟩] 1) (s :: rest) avail =
      ((avail.filter
          (fun p => s ∈ Lineup.eligFor [⟨"p1", ["QB"]⟩] ["p1", "p2"] p)).map
        (fun p => Lineup.ptsFor [⟨1, "p1", 10⟩, ⟨1, "p2", 5⟩] 1 p +
          Lineup.best (Lineup.eligFor [⟨"p1", ["QB"]⟩] ["p1", "p2"])
            (Lineup.ptsFor [⟨1, "p1", 10⟩, ⟨1, "p2", 5⟩] 1) rest
            (avail.erase p))).foldl max
        (Lineup.best (Lineup.eligFor [⟨"p1", ["QB"]⟩] ["p1", "p2"])
          (Lineup.ptsFor [⟨1, "p1", 10⟩, ⟨1, "p2", 5⟩] 1) rest avail) :=
    fun s rest avail => rfl
  have h1 : Lineup.best (Lineup.eligFor [⟨"p1", ["QB"]⟩] ["p1", "p2"])
      (Lineup.ptsFor [⟨1, "p1", 10⟩, ⟨1, "p2", 5⟩] 1)
      ["RB", "RB", "WR", "WR", "TE", "W/R/T", "Q/W/R/T", "DEF", "K"]
      ["p1", "p2"] = 0 :=
    best_eq_zero_of_no_elig _ _ _ _ (by decide)
  have h2 : Lineup.best (Lineup.eligFor [⟨"p1", ["QB"]⟩] ["p1", "p2"])
      (Lineup.ptsFor [⟨1, "p1", 10⟩, ⟨1, "p2", 5⟩] 1)
      ["RB", "RB", "WR", "WR", "TE", "W/R/T", "Q/W/R/T", "DEF", "K"]
      ["p2"] = 0 :=
    best_eq_zero_of_no_elig _ _ _ _ (by decide)
  have hf : (["p1", "p2"].filter
      (fun p => "QB" ∈ Lineup.eligFor [⟨"p1", ["QB"]⟩] ["p1", "p2"] p))
      = ["p1"] := by decide
  have hbest : Lineup.best (Lineup.eligFor [⟨"p1", ["QB"]⟩] ["p1", "p2"])
      (Lineup.ptsFor [⟨1, "p1", 10⟩, ⟨1, "p2", 5⟩] 1)
      Lineup.STARTING_SLOTS ["p1", "p2"] = 10 := by
    show Lineup.best _ _ ("QB" ::
      ["RB", "RB", "WR", "WR", "TE", "W/R/T", "Q/W/R/T", "DEF", "K"]) _ = 10
    rw [hstep, hf, h1]
    simp only [List.map_cons, List.map_nil, List.erase_cons_head,
      List.foldl_cons, List.foldl_nil, h2]
    simp [Lineup.ptsFor, dictGetD]
  simp [Lineup.compute_lineup_efficiency, Lineup.leRecord,
    Lineup.rosterFor, Lineup.ptsFor, Lineup.actualPts, dictGetD,
    List.insertionSort, List.orderedInsert, List.filterMap_cons, hbest]
  norm_num

/-- C2 amended: every emitted record has `regret ≥ 0`; and whenever the
started entries admit a legal assignment into the starting slot instances
(a feasible `Sel` whose value is the actual score), the record satisfies
`optimal_pts ≥ actual_pts` and `efficiency ≤ 1.0`, with
`efficiency ∈ (0,1]` whenever additionally `optimal_pts > 0` and
`actual_pts > 0`. -/
theorem lineup_efficiency_bounds (rosters : List Lineup.RosterRow)
    (stats : List Lineup.StatRow) (managers : List String)
    (players : List Lineup.PlayerRow) (mw : Nat) (rec : Lineup.LERec)
    (hmem : rec ∈ Lineup.compute_lineup_efficiency rosters stats managers
      players mw) :
    0 ≤ rec.regret ∧
    ∀ sel,
      Lineup.Sel
        (Lineup.eligFor players
          ((Lineup.rosterFor rosters rec.week rec.manager_id).map
            (·.player_id)))
        Lineup.STARTING_SLOTS
        ((Lineup.rosterFor rosters rec.week rec.manager_id).map
          (·.player_id)) sel →
      Lineup.selValue (Lineup.ptsFor stats rec.week) sel = rec.actual_pts →
      rec.actual_pts ≤ rec.optimal_pts ∧ rec.efficiency ≤ 1 ∧
        (0 < rec.optimal_pts → 0 < rec.actual_pts →
          0 < rec.efficiency ∧ rec.efficiency ≤ 1) := by
  obtain ⟨-, hrec⟩ := mem_lineup_efficiency hmem
  constructor
  · rw [hrec]
    exact le_max_left 0 _
  · intro sel hsel hval
    have hle : rec.actual_pts ≤ rec.optimal_pts := by
      rw [← hval, hrec]
      exact sel_le_best _ _ hsel
    have heff : rec.efficiency =
        if rec.optimal_pts > 0
          then rec.actual_pts / rec.optimal_pts else 1 := by
      rw [hrec]
      rfl
    refine ⟨hle, ?_, ?_⟩
    · rw [heff]
      split
      · rename_i hpos
        exact (div_le_one hpos).mpr hle
      · exact le_refl 1
    · intro hopt hact
      rw [heff, if_pos hopt]
      exact ⟨div_pos hact hopt, (div_le_one hopt).mpr hle⟩

/-- Helper: one unfolding step of `best`. -/
lemma best_cons (elig : String → List String) (pts : String → ℚ)
    (s : String) (rest avail : List String) :
    Lineup.best elig pts (s :: rest) avail =
      ((avail.filter (fun p => s ∈ elig p)).map
        (fun p => pts p + Lineup.best elig pts rest (avail.erase p))).foldl
      max (Lineup.best elig pts rest avail) := rfl

/-- Helper: a slot no available player is eligible for stays empty. -/
lemma best_cons_no_elig (elig : String → List String) (pts : String → ℚ)
    {s : String} {rest avail : List String}
    (hf : avail.filter (fun p => s ∈ elig p) = []) :
    Lineup.best elig pts (s :: rest) avail =
      Lineup.best elig pts rest avail := by
  rw [best_cons, hf]
  simp only [List.map_nil, List.foldl_nil]

set_option maxHeartbeats 1000000 in
/-- Witness for C2, the spec's FLEX scenario: two players eligible only
for the one `W/R/T` slot scoring 10 and 14, with the 10-point player
started; the emitted record has `actual = 10 ≤ 14 = optimal`,
`efficiency = 10/14 ∈ (0, 1]`. -/
theorem lineup_efficiency_bounds_witness :
    ∃ rec ∈ Lineup.compute_lineup_efficiency
      [⟨1, "m", "a", "W/R/T", true⟩, ⟨1, "m", "b", "BN", false⟩]
      [⟨1, "a", 10⟩, ⟨1, "b", 14⟩] ["m"]
      [⟨"a", ["W/R/T"]⟩, ⟨"b", ["W/R/T"]⟩] 14,
      rec.actual_pts ≤ rec.optimal_pts ∧ rec.efficiency ≤ 1 ∧
        (0 < rec.optimal_pts → 0 < rec.actual_pts →
          0 < rec.efficiency ∧ rec.efficiency ≤ 1) := by
  have hb3 : Lineup.best
      (Lineup.eligFor [⟨"a", ["W/R/T"]⟩, ⟨"b", ["W/R/T"]⟩] ["a", "b"])
      (Lineup.ptsFor [⟨1, "a", 10⟩, ⟨1, "b", 14⟩] 1)
      ["Q/W/R/T", "DEF", "K"] ["a", "b"] = 0 :=
    best_eq_zero_of_no_elig _ _ _ _ (by decide)
  have hbB : Lineup.best
      (Lineup.eligFor [⟨"a", ["W/R/T"]⟩, ⟨"b", ["W/R/T"]⟩] ["a", "b"])
      (Lineup.ptsFor [⟨1, "a", 10⟩, ⟨1, "b", 14⟩] 1)
      ["Q/W/R/T", "DEF", "K"] ["b"] = 0 :=
    best_eq_zero_of_no_elig _ _ _ _ (by decide)
  have hbA : Lineup.best
      (Lineup.eligFor [⟨"a", ["W/R/T"]⟩, ⟨"b", ["W/R/T"]⟩] ["a", "b"])
      (Lineup.ptsFor [⟨1, "a", 10⟩, ⟨1, "b", 14⟩] 1)
      ["Q/W/R/T", "DEF", "K"] ["a"] = 0 :=
    best_eq_zero_of_no_elig _ _ _ _ (by decide)
  have hflex : Lineup.best
      (Lineup.eligFor [⟨"a", ["W/R/T"]⟩, ⟨"b", ["W/R/T"]⟩] ["a", "b"])
      (Lineup.ptsFor [⟨1, "a", 10⟩, ⟨1, "b", 14⟩] 1)
      ["W/R/T", "Q/W/R/T", "DEF", "K"] ["a", "b"] = 14 := by
    rw [best_cons,
      show (["a", "b"].filter (fun p => "W/R/T" ∈
        Lineup.eligFor [⟨"a", ["W/R/T"]⟩, ⟨"b", ["W/R/T"]⟩] ["a", "b"] p))
        = ["a", "b"] from by decide, hb3]
    simp [List.erase_cons, hbA, hbB, Lineup.ptsFor, dictGetD]
    norm_num
  have hskips : Lineup.best
      (Lineup.eligFor [⟨"a", ["W/R/T"]⟩, ⟨"b", ["W/R/T"]⟩] ["a", "b"])
      (Lineup.ptsFor [⟨1, "a", 10⟩, ⟨1, "b", 14⟩] 1)
      Lineup.STARTING_SLOTS ["a", "b"] = 14 := by
    show Lineup.best _ _ ("QB" :: "RB" :: "RB" :: "WR" :: "WR" :: "TE" ::
      ["W/R/T", "Q/W/R/T", "DEF", "K"]) _ = 14
    rw [best_cons_no_elig _ _ (by decide), best_cons_no_elig _ _ (by decide),
      best_cons_no_elig _ _ (by decide), best_cons_no_elig _ _ (by decide),
      best_cons_no_elig _ _ (by decide), best_cons_no_elig _ _ (by decide),
      hflex]
  have hrec : Lineup.compute_lineup_efficiency
      [⟨1, "m", "a", "W/R/T", true⟩, ⟨1, "m", "b", "BN", false⟩]
      [⟨1, "a", 10⟩, ⟨1, "b", 14⟩] ["m"]
      [⟨"a", ["W/R/T"]⟩, ⟨"b", ["W/R/T"]⟩] 14
      = [⟨1, "m", 10, 14, 4, 10/14⟩] := by
    simp [Lineup.compute_lineup_efficiency, Lineup.leRecord,
      Lineup.rosterFor, Lineup.ptsFor, Lineup.actualPts, dictGetD,
      List.insertionSort, List.orderedInsert, List.filterMap_cons, hskips]
    norm_num
  have hmem : (⟨1, "m", 10, 14, 4, 10/14⟩ : Lineup.LERec) ∈
      Lineup.compute_lineup_efficiency
        [⟨1, "m", "a", "W/R/T", true⟩, ⟨1, "m", "b", "BN", false⟩]
        [⟨1, "a", 10⟩, ⟨1, "b", 14⟩] ["m"]
        [⟨"a", ["W/R/T"]⟩, ⟨"b", ["W/R/T"]⟩] 14 := by
    rw [hrec]; exact List.mem_singleton_self _
  refine ⟨_, hmem,
    (lineup_efficiency_bounds _ _ _ _ _ _ hmem).2
      [none, none, none, none, none, none, some "a", none, none, none]
      ?_ ?_⟩
  · exact Lineup.Sel.skip _ (Lineup.Sel.skip _ (Lineup.Sel.skip _
      (Lineup.Sel.skip _ (Lineup.Sel.skip _ (Lineup.Sel.skip _
        (Lineup.Sel.pick _ (by decide) (by decide)
          (Lineup.Sel.skip _ (Lineup.Sel.skip _ (Lineup.Sel.skip _
            (Lineup.Sel.nil _))))))))))
  · simp [Lineup.selValue, Lineup.ptsFor, dictGetD]

/-- Helper: the historical estimate stays in `[0,1]` whenever the CDF
stand-ins do. -/
lemma histEstimate_mem {phi : ℚ → ℚ} {phiDiv : ℚ → ℚ → ℚ}
    (hphi : ∀ z, 0 ≤ phi z ∧ phi z ≤ 1)
    (hphiDiv : ∀ d v, 0 ≤ phiDiv d v ∧ phiDiv d v ≤ 1)
    (mu_a var_a mu_b var_b : ℚ) :
    0 ≤ ExpectedWins.histEstimate phi phiDiv mu_a var_a mu_b var_b ∧
      ExpectedWins.histEstimate phi phiDiv mu_a var_a mu_b var_b ≤ 1 := by
  unfold ExpectedWins.histEstimate
  split
  · exact hphiDiv _ _
  · exact hphi _

/-- Helper: a convex blend of 1/2 and a value in `[0,1]` stays in
`[0,1]`. -/
lemma blend_mem {c h : ℚ} (hc0 : 0 ≤ c) (hc1 : c ≤ 1) (h0 : 0 ≤ h)
    (h1 : h ≤ 1) :
    0 ≤ (1 - c) * (1/2) + c * h ∧ (1 - c) * (1/2) + c * h ≤ 1 := by
  constructor <;> nlinarith

/-- Helper: every per-matchup probability `pa` lies in `[0,1]` (week 1 is
1/2; weeks 2–3 are a convex blend of 1/2 and the historical estimate;
later weeks are the estimate itself). -/
lemma pWinA_mem {phi : ℚ → ℚ} {phiDiv : ℚ → ℚ → ℚ}
    (hphi : ∀ z, 0 ≤ phi z ∧ phi z ≤ 1)
    (hphiDiv : ∀ d v, 0 ≤ phiDiv d v ∧ phiDiv d v ≤ 1)
    (w : Nat) (hist_a hist_b : List ℚ) (sa sb : ℚ) :
    0 ≤ ExpectedWins.pWinA phi phiDiv w hist_a hist_b sa sb ∧
      ExpectedWins.pWinA phi phiDiv w hist_a hist_b sa sb ≤ 1 := by
  unfold ExpectedWins.pWinA
  dsimp only
  split
  · norm_num
  · split
    · split
      · norm_num
      · obtain ⟨he0, he1⟩ := histEstimate_mem hphi hphiDiv
          (ExpectedWins.muVar hist_a sa).1 (ExpectedWins.muVar hist_a sa).2
          (ExpectedWins.muVar hist_b sb).1 (ExpectedWins.muVar hist_b sb).2
        exact blend_mem (le_min (by positivity) zero_le_one)
          (min_le_right _ _) he0 he1
    · exact histEstimate_mem hphi hphiDiv _ _ _ _

/-- Helper: the week of every emitted record is the week of some
processed row. -/
lemma ewLoop_week_mem {phi : ℚ → ℚ} {phiDiv : ℚ → ℚ → ℚ}
    {totals : List (String × List ℚ)} :
    ∀ {rows : List ExpectedWins.MRow} {cum : String → ℚ}
      {rec : ExpectedWins.EWRec},
      rec ∈ ExpectedWins.ewLoop phi phiDiv totals cum rows →
      rec.week ∈ rows.map (·.week) := by
  intro rows
  induction rows with
  | nil => intro cum rec h; simp [ExpectedWins.ewLoop] at h
  | cons row rest ih =>
    intro cum rec h
    simp only [ExpectedWins.ewLoop, List.mem_cons] at h
    rcases h with h | h | h
    · subst h; simp
    · subst h; simp
    · simpa using List.mem_cons_of_mem _ (ih h)

/-- Helper: week-sorted input rows yield week-sorted output records. -/
lemma ewLoop_pairwise_week {phi : ℚ → ℚ} {phiDiv : ℚ → ℚ → ℚ}
    {totals : List (String × List ℚ)} :
    ∀ {rows : List ExpectedWins.MRow} {cum : String → ℚ},
      rows.Pairwise (fun x y => x.week ≤ y.week) →
      (ExpectedWins.ewLoop phi phiDiv totals cum rows).Pairwise
        (fun a b => a.week ≤ b.week) := by
  intro rows
  induction rows with
  | nil => intro cum _; simp [ExpectedWins.ewLoop]
  | cons row rest ih =>
    intro cum hs
    rw [List.pairwise_cons] at hs
    obtain ⟨hhead, htail⟩ := hs
    have hbound : ∀ (c : String → ℚ),
        ∀ rec ∈ ExpectedWins.ewLoop phi phiDiv totals c rest,
        row.week ≤ rec.week := by
      intro c rec hrec
      have := ewLoop_week_mem hrec
      rw [List.mem_map] at this
      obtain ⟨r, hr, hw⟩ := this
      rw [← hw]
      exact hhead r hr
    simp only [ExpectedWins.ewLoop]
    rw [List.pairwise_cons]
    refine ⟨?_, ?_⟩
    · intro rec hrec
      rcases List.mem_cons.mp hrec with h | h
      · subst h; exact le_refl _
      · exact hbound _ rec h
    · rw [List.pairwise_cons]
      exact ⟨hbound _, ih htail⟩


/-- Helper: updating one key by a non-negative amount never decreases any
entry of the running-total map. -/
lemma upd_mono {f : String → ℚ} {x : ℚ} (hx : 0 ≤ x) (t u : String) :
    f u ≤ ExpectedWins.upd f t x u := by
  unfold ExpectedWins.upd
  split <;> linarith

lemma upd_apply_self (f : String → ℚ) (t : String) (x : ℚ) :
    ExpectedWins.upd f t x t = f t + x := if_pos rfl

lemma upd_apply_ne (f : String → ℚ) {t u : String} (x : ℚ) (h : u ≠ t) :
    ExpectedWins.upd f t x u = f u := if_neg h

/-- Helper: per-manager running totals in the scoring loop only grow —
the filtered output for any manager has non-decreasing `cum_xw`, and every
such record's `cum_xw` dominates the incoming accumulator value. -/
lemma ewLoop_cum {phi : ℚ → ℚ} {phiDiv : ℚ → ℚ → ℚ}
    (hphi : ∀ z, 0 ≤ phi z ∧ phi z ≤ 1)
    (hphiDiv : ∀ d v, 0 ≤ phiDiv d v ∧ phiDiv d v ≤ 1)
    (totals : List (String × List ℚ)) :
    ∀ (rows : List ExpectedWins.MRow) (cum : String → ℚ) (mid : String),
      (((ExpectedWins.ewLoop phi phiDiv totals cum rows).filter
        (fun r => r.manager_id = mid)).Pairwise
          (fun a b => a.cum_xw ≤ b.cum_xw)) ∧
      ∀ r ∈ (ExpectedWins.ewLoop phi phiDiv totals cum rows).filter
          (fun r => r.manager_id = mid), cum mid ≤ r.cum_xw := by
  intro rows
  induction rows with
  | nil => intro cum mid; simp [ExpectedWins.ewLoop]
  | cons row rest ih =>
    intro cum mid
    obtain ⟨hpa0, hpa1⟩ := pWinA_mem hphi hphiDiv row.week
      (ExpectedWins.histOf (ExpectedWins.totalsGet totals row.team_a))
      (ExpectedWins.histOf (ExpectedWins.totalsGet totals row.team_b))
      (ExpectedWins.orZero row.score_a) (ExpectedWins.orZero row.score_b)
    set pa := ExpectedWins.pWinA phi phiDiv row.week
      (ExpectedWins.histOf (ExpectedWins.totalsGet totals row.team_a))
      (ExpectedWins.histOf (ExpectedWins.totalsGet totals row.team_b))
      (ExpectedWins.orZero row.score_a) (ExpectedWins.orZero row.score_b)
      with hpadef
    set cum1 := ExpectedWins.upd cum row.team_a pa with hcum1
    set cum2 := ExpectedWins.upd cum1 row.team_b (1 - pa) with hcum2
    have h12 : ∀ u, cum1 u ≤ cum2 u := fun u =>
      upd_mono (by linarith) row.team_b u
    have h01 : ∀ u, cum u ≤ cum1 u := fun u => upd_mono hpa0 row.team_a u
    obtain ⟨P, Q⟩ := ih cum2 mid
    simp only [ExpectedWins.ewLoop, ← hpadef, ← hcum1, ← hcum2]
    by_cases hA : row.team_a = mid <;> by_cases hB : row.team_b = mid
    · simp only [List.filter_cons, hA, hB, decide_True, if_true]
      refine ⟨?_, ?_⟩
      · rw [List.pairwise_cons]
        refine ⟨?_, ?_⟩
        · intro r hr
          rcases List.mem_cons.mp hr with h | h
          · subst h; exact h12 mid
          · exact le_trans (h12 mid) (Q r h)
        · rw [List.pairwise_cons]
          exact ⟨fun r hr => Q r hr, P⟩
      · intro r hr
        rcases List.mem_cons.mp hr with h | h
        · subst h; exact h01 mid
        · rcases List.mem_cons.mp h with h' | h'
          · subst h'; exact le_trans (h01 mid) (h12 mid)
          · exact le_trans (le_trans (h01 mid) (h12 mid)) (Q r h')
    · simp only [List.filter_cons, hA, hB, decide_True, decide_False,
        Bool.false_eq_true, if_true, if_false]
      have ea : cum2 mid = cum1 mid := by
        rw [hcum2]
        exact upd_apply_ne cum1 (1 - pa) (fun h => hB h.symm)
      refine ⟨?_, ?_⟩
      · rw [List.pairwise_cons]
        exact ⟨fun r hr => ea ▸ Q r hr, P⟩
      · intro r hr
        rcases List.mem_cons.mp hr with h | h
        · subst h; exact h01 mid
        · exact le_trans (h01 mid) (ea ▸ Q r h)
    · simp only [List.filter_cons, hA, hB, decide_True, decide_False,
        Bool.false_eq_true, if_true, if_false]
      refine ⟨?_, ?_⟩
      · rw [List.pairwise_cons]
        exact ⟨fun r hr => Q r hr, P⟩
      · intro r hr
        rcases List.mem_cons.mp hr with h | h
        · subst h; exact le_trans (h01 mid) (h12 mid)
        · exact le_trans (le_trans (h01 mid) (h12 mid)) (Q r h)
    · simp only [List.filter_cons, hA, hB, decide_False,
        Bool.false_eq_true, if_false]
      have ec : cum2 mid = cum mid := by
        rw [hcum2, hcum1,
          upd_apply_ne _ _ (fun (h : mid = row.team_b) => hB h.symm),
          upd_apply_ne _ _ (fun (h : mid = row.team_a) => hA h.symm)]
      exact ⟨P, fun r hr => ec ▸ Q r hr⟩

/-- C7: for every manager, the emitted records (filtered to that manager,
in emission order) have non-decreasing week numbers and non-decreasing
`cum_xw` — `cum_xw` is a running sum of per-week probabilities that are
non-negative whenever the normal-CDF stand-ins take values in `[0,1]`, as
the real `Φ` does. -/
theorem expected_wins_cum_monotone (phi : ℚ → ℚ) (phiDiv : ℚ → ℚ → ℚ)
    (hphi : ∀ z, 0 ≤ phi z ∧ phi z ≤ 1)
    (hphiDiv : ∀ d v, 0 ≤ phiDiv d v ∧ phiDiv d v ≤ 1)
    (mts : List ExpectedWins.MRow) (mw : Nat) (mid : String) :
    ((ExpectedWins.compute_expected_wins phi phiDiv mts mw).filter
      (fun r => r.manager_id = mid)).Pairwise
        (fun a b => a.week ≤ b.week ∧ a.cum_xw ≤ b.cum_xw) := by
  have hsorted : ((mts.insertionSort (fun x y => x.week ≤ y.week)).filter
      (fun row => row.week ≤ mw)).Pairwise (fun x y => x.week ≤ y.week) :=
    (List.sorted_insertionSort _ mts).sublist (List.filter_sublist _)
  unfold ExpectedWins.compute_expected_wins
  exact List.Pairwise.and
    ((ewLoop_pairwise_week hsorted).sublist (List.filter_sublist _))
    ((ewLoop_cum hphi hphiDiv _ _ _ mid).1)

/-- Witness for C7 at a concrete two-week season, with the constant-1/2
stand-in for the normal CDF. -/
theorem expected_wins_cum_monotone_witness :
    ((ExpectedWins.compute_expected_wins (fun _ => 1/2) (fun _ _ => 1/2)
      [⟨1, "A", "B", some 100, some 90⟩, ⟨2, "A", "B", some 80, some 95⟩]
      14).filter (fun r => r.manager_id = "A")).Pairwise
        (fun a b => a.week ≤ b.week ∧ a.cum_xw ≤ b.cum_xw) :=
  expected_wins_cum_monotone _ _ (fun z => by norm_num)
    (fun d v => by norm_num) _ 14 "A"


/-- Helper: key-preserving lookup through the `buildDraws` transform. -/
lemma alookup_map_snd {β γ : Type} (f : β → γ) :
    ∀ (l : List (String × β)) (t : String),
      alookup (l.map (fun q => (q.1, f q.2))) t = (alookup l t).map f := by
  intro l t
  induction l with
  | nil => simp [alookup]
  | cons q rest ih =>
    by_cases hq : q.1 = t
    · simp [alookup, List.find?_cons, hq]
    · simpa [alookup, List.find?_cons, hq] using ih

/-- Helper: every score pool held in `draws` is nonempty (a present key
keeps its nonempty score list; an empty one would get `[100.0]`). -/
lemma buildDraws_val_ne_nil {totals : List (String × List ℚ)} {t : String}
    {p : List ℚ} (h : alookup (Playoff.buildDraws totals) t = some p) :
    p ≠ [] := by
  unfold Playoff.buildDraws at h
  rw [alookup_map_snd (fun v => if v = [] then [(100 : ℚ)] else v)] at h
  cases hv : alookup totals t with
  | none => rw [hv] at h; simp at h
  | some v =>
    rw [hv] at h
    have h' : (if v = [] then [(100 : ℚ)] else v) = p := by simpa using h
    rw [← h']
    split
    · simp
    · assumption

/-- Helper: with a nonempty team list whose first team is present in
`draws`, every pool lookup succeeds, returning either the eagerly
computed default (the first team's pool) or the team's own pool. -/
lemma getPool_ok (rest : List String) {draws : List (String × List ℚ)}
    {t0 : String} {p0 : List ℚ}
    (h0 : alookup draws t0 = some p0) (t : String) :
    ∃ pool, Playoff.getPool draws (t0 :: rest) t = .ok pool ∧
      (pool = p0 ∨ alookup draws t = some pool) := by
  cases ht : alookup draws t with
  | none => exact ⟨p0, by simp [Playoff.getPool, h0, ht], Or.inl rfl⟩
  | some q => exact ⟨q, by simp [Playoff.getPool, h0, ht], Or.inr rfl⟩

/-- Helper: a simulated matchup cannot fail when the first team's pool
resolves (all pools in `draws` being nonempty). -/
lemma simMatch_ok (rest : List String)
    {totals : List (String × List ℚ)} {t0 : String}
    {p0 : List ℚ} (rand : Nat → Nat)
    (h0 : alookup (Playoff.buildDraws totals) t0 = some p0)
    (st : Playoff.SimSt) (s : Playoff.SchedRow) :
    ∃ st', Playoff.simMatch (Playoff.buildDraws totals) (t0 :: rest) rand
      st s = .ok st' := by
  obtain ⟨poolA, hA, hAsrc⟩ := getPool_ok rest h0 s.team_a
  obtain ⟨poolB, hB, hBsrc⟩ := getPool_ok rest h0 s.team_b
  have h0ne : p0 ≠ [] := buildDraws_val_ne_nil h0
  have hAne : poolA ≠ [] := by
    rcases hAsrc with rfl | h
    · exact h0ne
    · exact buildDraws_val_ne_nil h
  have hBne : poolB ≠ [] := by
    rcases hBsrc with rfl | h
    · exact h0ne
    · exact buildDraws_val_ne_nil h
  cases poolA with
  | nil => exact absurd rfl hAne
  | cons a as =>
    cases poolB with
    | nil => exact absurd rfl hBne
    | cons b bs =>
      simp only [Playoff.simMatch, hA, hB, Playoff.drawScore]
      exact ⟨_, rfl⟩

/-- Helper: replaying the whole remaining schedule cannot fail. -/
lemma simSched_ok (rest : List String)
    {totals : List (String × List ℚ)} {t0 : String}
    {p0 : List ℚ} (rand : Nat → Nat)
    (h0 : alookup (Playoff.buildDraws totals) t0 = some p0) :
    ∀ (sched : List Playoff.SchedRow) (st : Playoff.SimSt),
      ∃ st', Playoff.simSched (Playoff.buildDraws totals) (t0 :: rest) rand
        sched st = .ok st' := by
  intro sched
  induction sched with
  | nil => intro st; exact ⟨st, rfl⟩
  | cons s srest ih =>
    intro st
    obtain ⟨st1, hst1⟩ := simMatch_ok rest rand h0 st s
    obtain ⟨st2, hst2⟩ := ih st1
    exact ⟨st2, by simp [Playoff.simSched, hst1, hst2]⟩

/-- Helper: the whole trial loop cannot fail. -/
lemma runTrials_ok (rest : List String)
    {totals : List (String × List ℚ)} {t0 : String}
    {p0 : List ℚ} (rand : Nat → Nat)
    (h0 : alookup (Playoff.buildDraws totals) t0 = some p0)
    (sched : List Playoff.SchedRow) (W0 PF0 : String → ℚ) (ptc : Nat) :
    ∀ (n ctr : Nat) (pl byes : String → Nat),
      ∃ res, Playoff.runTrials (Playoff.buildDraws totals) (t0 :: rest)
        rand sched W0 PF0 ptc n ctr pl byes = .ok res := by
  intro n
  induction n with
  | zero => intro ctr pl byes; exact ⟨_, rfl⟩
  | succ n ih =>
    intro ctr pl byes
    obtain ⟨st, hst⟩ := simSched_ok rest rand h0 sched ⟨W0, PF0, ctr⟩
    obtain ⟨res, hres⟩ := ih st.ctr _ _
    exact ⟨res, by simp only [Playoff.runTrials, hst]; exact hres⟩

/-- C9 counterexample: with one manager, no completed matchups, and one
remaining schedule row, the simulator raises (`KeyError` on the eager pool
default `draws[teams[0]]`) instead of returning probabilities — the
"schedule rows exist → probability entry for every team" half of the
claim fails. -/
theorem playoff_odds_keyerror :
    Playoff.simulate_playoff_odds ["m1"] [] [⟨1, "m1", "m2"⟩]
      (fun _ => 0) 1 6 = .error () := rfl

/-- C9 amended: with no remaining schedule rows the simulator returns the
distinguished "not available" result (`none`) and never raises; when
schedule rows exist, the trial count is positive, and the first manager's
draw pool resolves (it has at least one historical score), the simulator
returns a probability entry for every manager. -/
theorem playoff_odds_schedule (teams : List String)
    (mts : List Playoff.PMRow) (sched : List Playoff.SchedRow)
    (rand : Nat → Nat) (n ptc : Nat) :
    (sched = [] →
      Playoff.simulate_playoff_odds teams mts sched rand n ptc
        = .ok none) ∧
    (∀ t0 rest, teams = t0 :: rest →
      (alookup (Playoff.buildDraws (Playoff.buildTotals mts)) t0).isSome →
      0 < n → sched ≠ [] →
      ∃ l, Playoff.simulate_playoff_odds teams mts sched rand n ptc
          = .ok (some l) ∧
        ∀ t ∈ teams, ∃ e ∈ l, e.manager_id = t) := by
  constructor
  · intro hs
    subst hs
    simp [Playoff.simulate_playoff_odds, List.insertionSort]
  · intro t0 rest hteams hsome hn hsched
    subst hteams
    rw [Option.isSome_iff_exists] at hsome
    obtain ⟨p0, hp0⟩ := hsome
    have hsort_ne : List.insertionSort (fun x y => x.week ≤ y.week) sched
        ≠ [] := by
      intro hcontra
      apply hsched
      have := List.length_insertionSort (fun x y => x.week ≤ y.week) sched
      rw [hcontra] at this
      exact List.length_eq_zero.mp this.symm
    obtain ⟨res, hres⟩ := runTrials_ok rest rand hp0
      (List.insertionSort (fun x y => x.week ≤ y.week) sched)
      (Playoff.winsOf mts) (Playoff.pfOf mts) ptc n 0
      (fun _ => 0) (fun _ => 0)
    refine ⟨(t0 :: rest).map (fun t =>
      ⟨t, (res.1 t : ℚ) / n, (res.2.1 t : ℚ) / n⟩), ?_, ?_⟩
    · unfold Playoff.simulate_playoff_odds
      rw [if_neg hsort_ne, hres]
      dsimp only
      rw [if_neg (by
        rintro ⟨h0, -⟩
        omega)]
    · intro t ht
      exact ⟨_, List.mem_map_of_mem _ ht, rfl⟩

/-- Witness for C9: both halves at concrete inputs — an empty schedule
returns `none`; one manager with one historical score and one remaining
game yields an entry for the manager. -/
theorem playoff_odds_schedule_witness :
    Playoff.simulate_playoff_odds ["m1"] [] [] (fun _ => 0) 1 6
      = .ok none ∧
    ∃ l, Playoff.simulate_playoff_odds ["m1"]
        [⟨"m1", "m2", some 100, some 90⟩] [⟨1, "m1", "m2"⟩]
        (fun _ => 0) 1 6 = .ok (some l) ∧
      ∀ t ∈ ["m1"], ∃ e ∈ l, e.manager_id = t :=
  ⟨(playoff_odds_schedule ["m1"] [] [] (fun _ => 0) 1 6).1 rfl,
    (playoff_odds_schedule ["m1"] [⟨"m1", "m2", some 100, some 90⟩]
      [⟨1, "m1", "m2"⟩] (fun _ => 0) 1 6).2 "m1" [] rfl (by rfl)
      (by norm_num) (by simp)⟩
